import Mathlib

/-!
Verification of the float-chat front-end components: the message formatter
(`formatMessage` in `ChatMessage`), the result table (`DataTable`: filtering,
pagination, column visibility, CSV export, value formatting) and the chat
session controller (`ChatInterface`: `sendMessage`, `sendQuery`,
`handleRunAnyway`, `handleKeyPress`).

The TypeScript code is embedded shallowly:

* JavaScript numbers are modelled as decimal values `m / 10 ^ e`
  (`JSNumber`).  The data rows rendered by the table come from JSON decimal
  literals, which this representation captures exactly; binary
  floating-point artifacts are outside the model.
* A JavaScript value in a result record is `Value` (null/undefined, number,
  string, boolean).  `undefined` only arises from a missing object key and
  is treated by every code path exactly like `null`, so both are `vnull`.
* JavaScript objects (result records) are ordered key/value lists.
* The `String.prototype.split` call with a single capturing group is
  modelled by a leftmost-first-match scanner (`scanPartsAux`) that follows
  the alternation order of the regular expression
  `(\*\*.*?\*\*|` + "`.*?`" + `|` + "```" + `[\s\S]*?` + "```" + `)`.
-/

namespace FloatChat

/-! ## JavaScript primitives -/

/-- One decimal digit as a character. -/
def decDigit (n : Nat) : Char := Char.ofNat (48 + n % 10)

/-- Decimal digits of a natural number, most significant first; `fuel`
bounds the recursion depth and is always instantiated above the number of
digits. -/
def natDigitsAux : Nat → Nat → List Char
  | 0, _ => []
  | fuel + 1, n =>
    if n < 10 then [decDigit n]
    else natDigitsAux fuel (n / 10) ++ [decDigit (n % 10)]

/-- Decimal digits of a natural number, most significant first. -/
def natDigits (n : Nat) : List Char := natDigitsAux (n + 1) n

/-- The decimal rendering of a natural number (JavaScript `toString` on a
nonnegative integer in the non-exponent range). -/
def natRepr (n : Nat) : String := String.mk (natDigits n)

/-- The decimal rendering of an integer (JavaScript `toString` on an
integral number in the non-exponent range). -/
def intRepr (i : Int) : String :=
  if i < 0 then "-" ++ natRepr i.natAbs else natRepr i.natAbs

/-- A JavaScript number as delivered in query results, the decimal value
`m / 10 ^ e`. -/
structure JSNumber where
  m : Int
  e : Nat
  deriving DecidableEq

/-- `Number.isInteger`: whether `m / 10 ^ e` is an integer. -/
def JSNumber.isInteger (n : JSNumber) : Bool := n.m % ((10 : Int) ^ n.e) == 0

/-- Remove factors of ten shared between the mantissa and the exponent,
yielding the canonical decimal form of the value. -/
def stripZeros : Int → Nat → Int × Nat
  | m, 0 => (m, 0)
  | m, e + 1 => if m % 10 == 0 then stripZeros (m / 10) e else (m, e + 1)

/-- Pad a digit list on the left with zeros up to width `w`. -/
def padZeros (w : Nat) (ds : List Char) : List Char :=
  List.replicate (w - ds.length) '0' ++ ds

/-- JavaScript `Number.prototype.toString` on the value `m / 10 ^ e`:
the canonical decimal rendering (for values in the non-exponent range). -/
def JSNumber.render (n : JSNumber) : String :=
  let p := stripZeros n.m n.e
  let sign := if p.1 < 0 then "-" else ""
  let a := p.1.natAbs
  if p.2 == 0 then sign ++ natRepr a
  else
    sign ++ natRepr (a / 10 ^ p.2) ++ "." ++
      String.mk (padZeros p.2 (natDigits (a % 10 ^ p.2)))

/-- `Number.prototype.toFixed(4)`: round the value to four decimal places
(ties towards the larger value, per the ECMAScript algorithm) and render it
with exactly four fractional digits. -/
def JSNumber.toFixed4 (n : JSNumber) : String :=
  let scaled : Int := Int.fdiv (2 * n.m * 10 ^ 4 + 10 ^ n.e) (2 * 10 ^ n.e)
  let sign := if scaled < 0 then "-" else ""
  let a := scaled.natAbs
  sign ++ natRepr (a / 10000) ++ "." ++ String.mk (padZeros 4 (natDigits (a % 10000)))

/-- A JavaScript value appearing in a result record. -/
inductive Value where
  | vnull
  | vnum (n : JSNumber)
  | vstr (s : String)
  | vbool (b : Bool)
  deriving DecidableEq

/-- JavaScript `String(value)`. -/
def jsString : Value → String
  | .vnull => "null"
  | .vnum n => n.render
  | .vstr s => s
  | .vbool b => if b then "true" else "false"

/-- JavaScript truthiness test, negated: `null`, `0`, the empty string and
`false` are falsy. -/
def falsy : Value → Bool
  | .vnull => true
  | .vnum n => n.m == 0
  | .vstr s => s == ""
  | .vbool b => !b

/-- The whitespace characters stripped by `String.prototype.trim` that can
occur in chat input. -/
def isJsSpace (c : Char) : Bool :=
  c == ' ' || c == '\t' || c == '\n' || c == '\r' || c == '\x0b' || c == '\x0c'

/-- JavaScript `String.prototype.trim`. -/
def jsTrim (s : String) : String :=
  String.mk (((s.data.dropWhile isJsSpace).reverse.dropWhile isJsSpace).reverse)

/-- JavaScript `String.prototype.includes`, over character lists. -/
def isSubstrOf : List Char → List Char → Bool
  | n, [] => n.isEmpty
  | n, c :: t => n.isPrefixOf (c :: t) || isSubstrOf n t

/-- `String.prototype.toLowerCase`, over the characters of a string. -/
def lowerChars (s : String) : List Char := s.data.map Char.toLower

/-! ## Message formatter (`formatMessage` in `ChatMessage.tsx`)

`formatMessage` splits its input on the regular expression with one
capturing group over the alternation: bold (`\*\*.*?\*\*`), inline code
(one backtick, lazy dot-star, one backtick), fenced block (three backticks,
lazy `[\s\S]*?`, three backticks) — in that order, which is the order the
backtracking engine tries them at each position.  `.` does not match a line
terminator; `[\s\S]` matches everything. -/

/-- The JavaScript line terminators, which `.` does not match. -/
def isLineTerminator (c : Char) : Bool :=
  c == '\n' || c == '\r' || c == Char.ofNat 0x2028 || c == Char.ofNat 0x2029

/-- Index of the closing backtick of a lazy inline-code match: the first
backtick, provided no line terminator precedes it. -/
def findCloseInline : List Char → Option Nat
  | [] => none
  | c :: cs =>
    if c == '`' then some 0
    else if isLineTerminator c then none
    else (findCloseInline cs).map (· + 1)

/-- Index of the closing `**` of a lazy bold match: the first occurrence of
two asterisks, provided no line terminator precedes it. -/
def findCloseBold : List Char → Option Nat
  | '*' :: '*' :: _ => some 0
  | c :: cs => if isLineTerminator c then none else (findCloseBold cs).map (· + 1)
  | [] => none

/-- Index of the closing triple backtick of a lazy fenced-block match: the
first occurrence of three backticks (any characters, including line
terminators, may precede it). -/
def findCloseTriple : List Char → Option Nat
  | '`' :: '`' :: '`' :: _ => some 0
  | _ :: cs => (findCloseTriple cs).map (· + 1)
  | [] => none

/-- Match one alternative of the regular expression at the head of `cs`, in
the alternation's order (bold, then inline code, then fenced block);
returns the length of the matched token. -/
def tryToken (cs : List Char) : Option Nat :=
  match cs with
  | '*' :: '*' :: rest =>
    match findCloseBold rest with
    | some i => some (i + 4)
    | none => none
  | '`' :: rest =>
    match findCloseInline rest with
    | some i => some (i + 2)
    | none =>
      match rest with
      | '`' :: '`' :: rest3 =>
        match findCloseTriple rest3 with
        | some i => some (i + 6)
        | none => none
      | _ => none
  | _ => none

/-- Prepend a character to the first (plain) part. -/
def consPart (c : Char) : List (List Char) → List (List Char)
  | [] => [[c]]
  | p :: ps => (c :: p) :: ps

/-- `text.split(re)` with a single capturing group wrapping the whole
alternation: scan left to right; at each position emit the first matching
alternative as a token part and continue after it, otherwise the character
joins the surrounding plain part.  Parts alternate plain text (possibly
empty) and tokens, beginning and ending with a plain part.  `fuel` bounds
the recursion and is always instantiated above the input length. -/
def scanPartsAux : Nat → List Char → List (List Char)
  | 0, _ => []
  | _ + 1, [] => [[]]
  | fuel + 1, c :: rest =>
    match tryToken (c :: rest) with
    | some n => [] :: (c :: rest).take n :: scanPartsAux fuel ((c :: rest).drop n)
    | none => consPart c (scanPartsAux fuel rest)

/-- The part list produced by the `text.split(...)` call of `formatMessage`. -/
def scanParts (cs : List Char) : List (List Char) := scanPartsAux (cs.length + 1) cs

/-- The part list of `formatMessage`, at the string level. -/
def splitParts (text : String) : List String := (scanParts text.data).map String.mk

/-- One renderable segment produced by `formatMessage`. -/
inductive Segment where
  | bold (s : String)
  | codeBlock (s : String)
  | inlineCode (s : String)
  | text (s : String)
  | br
  deriving DecidableEq

/-- `part.split('\n')` over characters: split at every newline, keeping
empty pieces, never returning an empty list. -/
def splitLines : List Char → List (List Char)
  | [] => [[]]
  | c :: cs =>
    if c == '\n' then [] :: splitLines cs
    else
      match splitLines cs with
      | [] => [[c]]
      | l :: ls => (c :: l) :: ls

/-- Break markers between the lines after the first. -/
def breakTail : List (List Char) → List Segment
  | [] => []
  | l :: ls => .br :: .text (String.mk l) :: breakTail ls

/-- A plain part rendered with embedded line breaks expanded into explicit
break markers. -/
def breakSegments : List (List Char) → List Segment
  | [] => []
  | l :: ls => .text (String.mk l) :: breakTail ls

/-- Render one part of the split, as the body of the `parts.map` call does:
bold first, then fenced block, then inline code, otherwise plain text with
break markers.  Slices follow `String.prototype.slice` with a negative end
index. -/
def renderPart (part : List Char) : List Segment :=
  if "**".data.isPrefixOf part && "**".data.reverse.isPrefixOf part.reverse then
    [.bold (String.mk ((part.drop 2).take (part.length - 4)))]
  else if "```".data.isPrefixOf part && "```".data.reverse.isPrefixOf part.reverse then
    [.codeBlock (String.mk ((part.drop 3).take (part.length - 6)))]
  else if "`".data.isPrefixOf part && "`".data.reverse.isPrefixOf part.reverse then
    [.inlineCode (String.mk ((part.drop 1).take (part.length - 2)))]
  else
    breakSegments (splitLines part)

/-- `formatMessage`: split on the markup regular expression, then render
every part. -/
def formatMessage (text : String) : List Segment :=
  ((scanParts text.data).map renderPart).flatten

/-! ## Result table (`DataTable.tsx`) -/

/-- One result record: an ordered mapping from column name to value (a
JavaScript object from the `data` array). -/
abbrev Row := List (String × Value)

/-- `row[col]`: property lookup; a missing key yields `undefined`, treated
as `vnull` (see the module docstring). -/
def getCol (row : Row) (col : String) : Value := (row.lookup col).getD .vnull

/-- `Object.values(row)`. -/
def rowValues (row : Row) : List Value := row.map Prod.snd

/-- The component state of `DataTable` (props and `useState` hooks; the
`Set` of hidden columns is a list queried by membership). -/
structure TableState where
  data : List Row
  pageSize : Nat
  currentPage : Nat
  searchTerm : String
  hiddenColumns : List String
  deriving DecidableEq

/-- `Object.keys(data[0])`: the column set, from the first record. -/
def allColumns (data : List Row) : List String := (data.headD []).map Prod.fst

/-- `allColumns.filter(col => !hiddenColumns.has(col))`. -/
def visibleColumns (st : TableState) : List String :=
  (allColumns st.data).filter (fun col => !st.hiddenColumns.contains col)

/-- The row predicate of the free-text filter: some value, stringified and
lowercased, contains the lowercased search term. -/
def rowMatches (searchTerm : String) (row : Row) : Bool :=
  (rowValues row).any (fun v => isSubstrOf (lowerChars searchTerm) (lowerChars (jsString v)))

/-- `filteredData`: the rows kept by the free-text filter. -/
def filteredData (st : TableState) : List Row :=
  st.data.filter (rowMatches st.searchTerm)

/-- `Math.ceil (a / b)` on natural numbers. -/
def ceilDiv (a b : Nat) : Nat := (a + b - 1) / b

/-- `totalPages = Math.ceil(filteredData.length / pageSize)`. -/
def totalPages (st : TableState) : Nat := ceilDiv (filteredData st).length st.pageSize

/-- `startIndex = (currentPage - 1) * pageSize`. -/
def startIndex (st : TableState) : Nat := (st.currentPage - 1) * st.pageSize

/-- `paginatedData = filteredData.slice(startIndex, startIndex + pageSize)`. -/
def paginatedData (st : TableState) : List Row :=
  ((filteredData st).drop (startIndex st)).take st.pageSize

/-- `paginatedData` as it would render on page `p` of the same state. -/
def pageAt (st : TableState) (p : Nat) : List Row :=
  paginatedData { st with currentPage := p }

/-- `toggleColumn`: delete the column from the hidden set if present,
otherwise add it. -/
def toggleColumn (st : TableState) (column : String) : TableState :=
  if st.hiddenColumns.contains column then
    { st with hiddenColumns := st.hiddenColumns.erase column }
  else
    { st with hiddenColumns := st.hiddenColumns ++ [column] }

/-- The raw CSV cell text, `String(row[col] || '')`: the stringified raw
value, with falsy values collapsing to the empty string. -/
def rawCsvValue (v : Value) : String := if falsy v then "" else jsString v

/-- An individually double-quoted CSV field. -/
def quoteField (s : String) : String := "\"" ++ s ++ "\""

/-- One field of the CSV export. -/
def csvField (row : Row) (col : String) : String := quoteField (rawCsvValue (getCol row col))

/-- The lines of the CSV export: the header of visible column names, then
one line per filtered row. -/
def csvLines (st : TableState) : List String :=
  String.intercalate "," (visibleColumns st)
    :: (filteredData st).map (fun row =>
        String.intercalate "," ((visibleColumns st).map (csvField row)))

/-- `exportToCSV`: the text of the downloaded file,
`[headers, ...rows].join('\n')`. -/
def exportToCSV (st : TableState) : String := String.intercalate "\n" (csvLines st)

/-- `formatValue`: display formatting of one cell value. -/
def formatValue : Value → String
  | .vnull => "-"
  | .vnum n => if n.isInteger then n.render else n.toFixed4
  | .vstr s => if s.length > 50 then (s.take 47) ++ "..." else s
  | .vbool b => jsString (.vbool b)

/-! ## Chat session controller (`ChatInterface.tsx`)

The controller is a state machine: the synchronous prefix of `sendQuery`
(set the loading flag, issue the request) and its asynchronous completion
(append the response or error message, clear the flag) are separate steps,
so states with a request in flight are first-class.  The spec's
`pendingRequest` flag is `isLoading`; the list of issued-but-uncompleted
requests is kept alongside as the observable the concurrency claims are
about.  `Date.now()` is modelled by a `now` field, which the claims never
depend on.  Every step is a total function: no exception escapes. -/

/-- `message_type`. -/
inductive MsgType where
  | user
  | bot
  | system
  | error
  deriving DecidableEq

/-- One message of the log. -/
structure ChatMsg where
  id : String
  message : String
  message_type : MsgType
  timestamp : String
  sql_query : Option String
  data : Option (List Row)
  clarification_needed : Bool
  deriving DecidableEq

/-- The JSON body of a `POST /query` request. -/
structure QueryRequest where
  question : String
  conversation_id : Option String
  override : Bool
  sql_query : Option String
  deriving DecidableEq

/-- The JSON body of a successful `/query` response. -/
structure QueryResponse where
  response : String
  message_type : MsgType
  conversation_id : Option String
  sql_query : Option String
  data : Option (List Row)
  clarification_needed : Bool
  deriving DecidableEq

/-- How a request completes: parsed response, non-2xx status (thrown as
`HTTP error! status: ...` and caught), or a rejected fetch promise. -/
inductive QueryOutcome where
  | success (resp : QueryResponse)
  | httpError (status : Nat)
  | transportError (emsg : String)
  deriving DecidableEq

/-- Whether the outcome takes the `catch` path. -/
def isFailure : QueryOutcome → Bool
  | .success _ => false
  | .httpError _ => true
  | .transportError _ => true

/-- A transient notification. -/
structure Toast where
  title : String
  description : String
  destructive : Bool
  deriving DecidableEq

/-- The controller state. -/
structure ChatState where
  messages : List ChatMsg
  input : String
  isLoading : Bool
  conversationId : String
  toasts : List Toast
  pendingRequests : List QueryRequest
  now : Nat
  deriving DecidableEq

/-- The welcome message installed on mount. -/
def welcomeMessage : ChatMsg :=
  { id := "welcome"
    message := "🌊 **Welcome to the Oceanographic Data Assistant!**\n\nI can help you explore oceanographic data using natural language queries."
    message_type := .system
    timestamp := "0"
    sql_query := none
    data := none
    clarification_needed := false }

/-- The state after mount. -/
def initChatState : ChatState :=
  { messages := [welcomeMessage]
    input := ""
    isLoading := false
    conversationId := ""
    toasts := []
    pendingRequests := []
    now := 1 }

/-- The input `onChange` handler. -/
def setInput (st : ChatState) (s : String) : ChatState := { st with input := s }

/-- `conversationId || undefined` in the request body. -/
def convIdField (st : ChatState) : Option String :=
  if st.conversationId == "" then none else some st.conversationId

/-- The synchronous prefix of `sendQuery`: set the loading flag and issue
the `fetch`. -/
def sendQueryStart (st : ChatState) (question : String) (over : Bool)
    (sql : Option String) : ChatState :=
  { st with
    isLoading := true
    pendingRequests := st.pendingRequests ++
      [{ question := question, conversation_id := convIdField st,
         override := over, sql_query := sql }] }

/-- `sendMessage`: no-op if the trimmed input is empty or a request is
loading; otherwise append the user message, clear the input and start
`sendQuery(question)`.  The boolean reports whether a request was issued. -/
def sendMessage (st : ChatState) : ChatState × Bool :=
  if jsTrim st.input == "" || st.isLoading then (st, false)
  else
    (sendQueryStart
      { st with
        messages := st.messages ++
          [{ id := natRepr st.now, message := st.input, message_type := .user,
             timestamp := natRepr st.now, sql_query := none, data := none,
             clarification_needed := false }]
        input := "" }
      st.input false none, true)

/-- `handleRunAnyway`: starts `sendQuery(message.message, true,
message.sql_query)` with no guard of any kind. -/
def handleRunAnyway (st : ChatState) (msg : ChatMsg) : ChatState × Bool :=
  (sendQueryStart st msg.message true msg.sql_query, true)

/-- The error-path state change shared by both failure outcomes: append one
`error` message built from the caught error's text, surface the destructive
toast, and let `finally` clear the loading flag. -/
def applyCatch (st : ChatState) (emsg : String) : ChatState :=
  { st with
    messages := st.messages ++
      [{ id := natRepr (st.now + 1), message := "❌ Connection Error: " ++ emsg,
         message_type := .error, timestamp := natRepr st.now,
         sql_query := none, data := none, clarification_needed := false }]
    toasts := st.toasts ++
      [{ title := "Connection Error",
         description := "Unable to connect to the server", destructive := true }]
    isLoading := false
    pendingRequests := st.pendingRequests.drop 1 }

/-- The asynchronous completion of `sendQuery`: the `try` body after the
`fetch` resolves, the `catch` for both failure shapes, and the `finally`
clearing the loading flag on every path. -/
def sendQueryComplete (st : ChatState) (o : QueryOutcome) : ChatState :=
  match o with
  | .success resp =>
    let newConv :=
      match resp.conversation_id with
      | some c => if c != "" && st.conversationId == "" then c else st.conversationId
      | none => st.conversationId
    let newToasts :=
      match resp.data with
      | some rows =>
        if resp.message_type == .bot && rows.length != 0 then
          st.toasts ++
            [{ title := "Query Successful",
               description := "Found " ++ natRepr rows.length ++ " records",
               destructive := false }]
        else st.toasts
      | none => st.toasts
    { st with
      messages := st.messages ++
        [{ id := natRepr (st.now + 1), message := resp.response,
           message_type := resp.message_type, timestamp := natRepr st.now,
           sql_query := resp.sql_query, data := resp.data,
           clarification_needed := resp.clarification_needed }]
      conversationId := newConv
      toasts := newToasts
      isLoading := false
      pendingRequests := st.pendingRequests.drop 1 }
  | .httpError status => applyCatch st ("HTTP error! status: " ++ natRepr status)
  | .transportError emsg => applyCatch st emsg

/-- A keyboard event as seen by `handleKeyPress`. -/
structure KeyEvent where
  key : String
  shiftKey : Bool
  deriving DecidableEq

/-- What `handleKeyPress` does with an event. -/
structure KeyPressEffect where
  defaultSuppressed : Bool
  submitInvoked : Bool
  deriving DecidableEq

/-- `handleKeyPress`: on plain Enter, suppress the default action and
submit; otherwise do nothing. -/
def handleKeyPress (e : KeyEvent) : KeyPressEffect :=
  if e.key == "Enter" && !e.shiftKey then
    { defaultSuppressed := true, submitInvoked := true }
  else
    { defaultSuppressed := false, submitInvoked := false }

/-! ## Supporting lemmas -/

/-- Concatenation of a list of strings, in order. -/
def concatStrings : List String → String
  | [] => ""
  | s :: rest => s ++ concatStrings rest

theorem string_mk_append (a b : List Char) :
    String.mk a ++ String.mk b = String.mk (a ++ b) := rfl

theorem concatStrings_map_mk (ls : List (List Char)) :
    concatStrings (ls.map String.mk) = String.mk ls.flatten := by
  induction ls with
  | nil => rfl
  | cons l ls ih =>
    simp only [List.map_cons, concatStrings, ih, List.flatten_cons, string_mk_append]

/-- A matched token is nonempty and can only start at a nonempty suffix. -/
theorem tryToken_pos {cs : List Char} {n : Nat} (h : tryToken cs = some n) :
    0 < n ∧ cs ≠ [] := by
  unfold tryToken at h
  split at h
  · split at h <;> simp_all
    omega
  · split at h
    · simp_all; omega
    · split at h
      · split at h <;> simp_all
        omega
      · simp_all
  · simp_all

theorem consPart_flatten (c : Char) (ls : List (List Char)) :
    (consPart c ls).flatten = c :: ls.flatten := by
  cases ls <;> simp [consPart]

/-- The split is a partition of its input: concatenating the parts, in
order, reconstructs the scanned characters. -/
theorem scanPartsAux_flatten (fuel : Nat) :
    ∀ cs : List Char, cs.length < fuel → (scanPartsAux fuel cs).flatten = cs := by
  induction fuel with
  | zero => intro cs h; omega
  | succ fuel ih =>
    intro cs h
    cases cs with
    | nil => simp [scanPartsAux]
    | cons c rest =>
      rw [scanPartsAux]
      split
      next n htk =>
        obtain ⟨hn, hcs⟩ := tryToken_pos htk
        simp only [List.flatten_cons, List.flatten_nil, List.nil_append]
        rw [ih ((c :: rest).drop n)
          (by simp only [List.length_drop, List.length_cons]
              simp only [List.length_cons] at h
              omega)]
        exact List.take_append_drop n (c :: rest)
      next htk =>
        rw [consPart_flatten,
          ih rest (by simp only [List.length_cons] at h; omega)]

/-- C10 as a statement about `splitParts`. -/
theorem splitParts_flatten (text : String) :
    concatStrings (splitParts text) = text := by
  unfold splitParts scanParts
  rw [concatStrings_map_mk, scanPartsAux_flatten _ _ (by omega)]

/-- C10: the formatter's tokenization is a partition of its input:
concatenating, in order, all parts produced by the split — the captured
delimiter-matched tokens and the intervening plain-text parts —
reconstructs the original body exactly; delimiter characters are stripped
only afterwards, inside `renderPart`, within the segment they delimit. -/
theorem formatMessage_tokenization_partition (text : String) :
    concatStrings (splitParts text) = text
    ∧ formatMessage text = ((scanParts text.data).map renderPart).flatten :=
  ⟨splitParts_flatten text, rfl⟩

/-- C1: at the failing input "```c```" the formatter does not emit a single
code-block segment with content `c`: because the alternation tries the
single-backtick alternative before the triple-backtick one, the fence is
split into two empty inline-code tokens around the inline code `c`.  This
is the evaluation of the embedded `formatMessage` at that input. -/
theorem formatMessage_fence_eval :
    formatMessage "```c```" =
      [.text "", .inlineCode "", .text "", .inlineCode "c", .text "",
       .inlineCode "", .text ""] := by
  decide

/-! ### Decimal rendering lemmas -/

theorem decDigit_isDigit (n : Nat) : (decDigit n).isDigit = true := by
  have h : n % 10 < 10 := Nat.mod_lt _ (by omega)
  unfold decDigit
  generalize n % 10 = k at h ⊢
  interval_cases k <;> decide

theorem natDigitsAux_digits (fuel : Nat) :
    ∀ n : Nat, ∀ c ∈ natDigitsAux fuel n, c.isDigit = true := by
  induction fuel with
  | zero => simp [natDigitsAux]
  | succ fuel ih =>
    intro n c hc
    rw [natDigitsAux] at hc
    split at hc
    · simp only [List.mem_singleton] at hc
      subst hc
      exact decDigit_isDigit n
    · rw [List.mem_append, List.mem_singleton] at hc
      rcases hc with hc | hc
      · exact ih _ _ hc
      · subst hc
        exact decDigit_isDigit _

theorem natDigits_digits (n : Nat) : ∀ c ∈ natDigits n, c.isDigit = true :=
  natDigitsAux_digits (n + 1) n

theorem natDigitsAux_length_le :
    ∀ (k fuel n : Nat), n < fuel → n < 10 ^ k → 0 < k →
      (natDigitsAux fuel n).length ≤ k := by
  intro k fuel
  induction fuel generalizing k with
  | zero => omega
  | succ fuel ih =>
    intro n hfuel hk hkpos
    rw [natDigitsAux]
    split
    · simpa using hkpos
    · rename_i hn10
      simp only [Nat.not_lt] at hn10
      have hk2 : 2 ≤ k := by
        by_contra hc
        have : k = 1 := by omega
        subst this
        simp only [pow_one] at hk
        omega
      have hdivlt : n / 10 < 10 ^ (k - 1) := by
        rw [Nat.div_lt_iff_lt_mul (by omega : 0 < 10)]
        calc n < 10 ^ k := hk
          _ = 10 ^ (k - 1) * 10 := by
            rw [← pow_succ]
            congr 1
            omega
      have hfuel2 : n / 10 < fuel := by
        have : n / 10 < n := Nat.div_lt_self (by omega) (by omega)
        omega
      have := ih (k - 1) (n / 10) hfuel2 hdivlt (by omega)
      simp only [List.length_append, List.length_cons, List.length_nil]
      omega

theorem natDigits_length_le_four (n : Nat) (h : n < 10000) :
    (natDigits n).length ≤ 4 :=
  natDigitsAux_length_le 4 (n + 1) n (by omega) (by norm_num; omega) (by omega)

/-- Stripping shared powers of ten from an exactly divisible mantissa
reaches the integer value. -/
theorem stripZeros_of_dvd :
    ∀ (e : Nat) (m q : Int), m = 10 ^ e * q → stripZeros m e = (q, 0) := by
  intro e
  induction e with
  | zero =>
    intro m q h
    simp only [pow_zero, one_mul] at h
    subst h
    rfl
  | succ e ih =>
    intro m q h
    have hmod : m % 10 = 0 := by
      subst h
      rw [pow_succ, mul_comm ((10 : Int) ^ e) 10, mul_assoc]
      exact Int.mul_emod_right 10 _
    have hdiv : m / 10 = 10 ^ e * q := by
      subst h
      rw [pow_succ, mul_comm ((10 : Int) ^ e) 10, mul_assoc]
      exact Int.mul_ediv_cancel_left _ (by norm_num)
    rw [stripZeros]
    simp only [hmod, beq_self_eq_true, if_true]
    rw [hdiv]
    exact ih _ _ rfl

/-- An integral `JSNumber` renders as the plain decimal text of its integer
value. -/
theorem render_of_isInteger (n : JSNumber) (h : n.isInteger = true) :
    ∃ q : Int, n.m = 10 ^ n.e * q ∧ n.render = intRepr q := by
  have hmod : n.m % ((10 : Int) ^ n.e) = 0 := by
    simpa [JSNumber.isInteger] using h
  obtain ⟨q, hq⟩ := Int.dvd_of_emod_eq_zero hmod
  refine ⟨q, hq, ?_⟩
  unfold JSNumber.render
  rw [stripZeros_of_dvd n.e n.m q hq]
  simp only [beq_self_eq_true, if_true, intRepr]
  split
  · rfl
  · cases hnr : natRepr q.natAbs
    rfl

theorem string_data_append (a b : String) : (a ++ b).data = a.data ++ b.data := rfl

/-- `toFixed4` output always splits as an integer part (a sign and digits)
followed by a dot and exactly four digits. -/
theorem toFixed4_shape (n : JSNumber) :
    ∃ ip fr : String, n.toFixed4 = ip ++ "." ++ fr ∧ fr.length = 4 ∧
      (∀ c ∈ fr.data, c.isDigit = true) ∧
      (∀ c ∈ ip.data, c = '-' ∨ c.isDigit = true) := by
  unfold JSNumber.toFixed4
  set s : Int := Int.fdiv (2 * n.m * 10 ^ 4 + 10 ^ n.e) (2 * 10 ^ n.e) with hs
  refine ⟨(if s < 0 then "-" else "") ++ natRepr (s.natAbs / 10000),
    String.mk (padZeros 4 (natDigits (s.natAbs % 10000))), rfl, ?_, ?_, ?_⟩
  · show (padZeros 4 (natDigits (s.natAbs % 10000))).length = 4
    have h4 : (natDigits (s.natAbs % 10000)).length ≤ 4 :=
      natDigits_length_le_four _ (Nat.mod_lt _ (by omega))
    unfold padZeros
    simp only [List.length_append, List.length_replicate]
    omega
  · intro c hc
    have hc2 : c ∈ padZeros 4 (natDigits (s.natAbs % 10000)) := hc
    unfold padZeros at hc2
    rw [List.mem_append] at hc2
    rcases hc2 with hc2 | hc2
    · have : c = '0' := List.eq_of_mem_replicate hc2
      subst this
      decide
    · exact natDigits_digits _ _ hc2
  · intro c hc
    rw [string_data_append, List.mem_append] at hc
    rcases hc with hc | hc
    · split at hc
      · rw [show ("-" : String).data = ['-'] from rfl, List.mem_singleton] at hc
        exact Or.inl hc
      · rw [show ("" : String).data = ([] : List Char) from rfl] at hc
        exact absurd hc (List.not_mem_nil c)
    · right
      exact natDigits_digits _ _ hc

/-- C3 counterexample: at the concrete input `null`, the cell renders the
ASCII hyphen placeholder, not the em-dash placeholder the claim states. -/
theorem formatValue_placeholder_cex : ¬ formatValue Value.vnull = "—" := by
  decide

/-- C3 (amended: the placeholder is the ASCII hyphen "-"): null or
undefined — including a key missing from a later record — renders "-"; an
integral number renders as unformatted integer text; a non-integral number
renders with exactly 4 decimal places; a string longer than 50 characters
renders as its first 47 characters plus an ellipsis marker; every other
value renders as its plain text conversion. -/
theorem formatValue_spec :
    formatValue Value.vnull = "-"
    ∧ (∀ (row : Row) (col : String), row.lookup col = none →
        formatValue (getCol row col) = "-")
    ∧ (∀ n : JSNumber, n.isInteger = true →
        ∃ q : Int, n.m = 10 ^ n.e * q ∧ formatValue (.vnum n) = intRepr q)
    ∧ (∀ n : JSNumber, n.isInteger = false →
        ∃ ip fr : String, formatValue (.vnum n) = ip ++ "." ++ fr ∧ fr.length = 4 ∧
          (∀ c ∈ fr.data, c.isDigit = true) ∧ (∀ c ∈ ip.data, c = '-' ∨ c.isDigit = true))
    ∧ (∀ s : String, s.length > 50 → formatValue (.vstr s) = s.take 47 ++ "...")
    ∧ (∀ s : String, s.length ≤ 50 → formatValue (.vstr s) = s)
    ∧ (∀ b : Bool, formatValue (.vbool b) = jsString (.vbool b)) := by
  refine ⟨rfl, ?_, ?_, ?_, ?_, ?_, fun b => rfl⟩
  · intro row col h
    simp [getCol, h, formatValue]
  · intro n h
    obtain ⟨q, hq, hr⟩ := render_of_isInteger n h
    exact ⟨q, hq, by simp [formatValue, h, hr]⟩
  · intro n h
    simpa [formatValue, h] using toFixed4_shape n
  · intro s h
    simp [formatValue, h]
  · intro s h
    have : ¬ s.length > 50 := by omega
    simp [formatValue, this]

/-- Witness for C3: the amended statement evaluated at `null`, a missing
key, the integer `3.0`, the non-integer `1.5`, a 51-character string and a
short string. -/
theorem formatValue_spec_witness :
    ([] : Row).lookup "temp" = none
    ∧ formatValue (getCol ([] : Row) "temp") = "-"
    ∧ JSNumber.isInteger ⟨30, 1⟩ = true
    ∧ (∃ q : Int, (⟨30, 1⟩ : JSNumber).m = 10 ^ (⟨30, 1⟩ : JSNumber).e * q
        ∧ formatValue (.vnum ⟨30, 1⟩) = intRepr q)
    ∧ JSNumber.isInteger ⟨15, 1⟩ = false
    ∧ (∃ ip fr : String, formatValue (.vnum ⟨15, 1⟩) = ip ++ "." ++ fr ∧ fr.length = 4 ∧
        (∀ c ∈ fr.data, c.isDigit = true) ∧ (∀ c ∈ ip.data, c = '-' ∨ c.isDigit = true))
    ∧ formatValue (.vstr (String.mk (List.replicate 51 'a'))) =
        (String.mk (List.replicate 51 'a')).take 47 ++ "..."
    ∧ formatValue (.vstr "ok") = "ok" := by
  refine ⟨by decide, formatValue_spec.2.1 _ _ (by decide), by decide,
    formatValue_spec.2.2.1 _ (by decide), by decide,
    formatValue_spec.2.2.2.1 _ (by decide),
    formatValue_spec.2.2.2.2.1 _ (by decide),
    formatValue_spec.2.2.2.2.2.1 _ (by decide)⟩

/-! ### Result table claims -/

/-- C2: CSV export serializes the filtered (not paginated) rows restricted
to the currently visible columns: the header row of visible column names
comes first, then one line per filtered row, each field individually
double-quoted, every field value taken from the raw record (via
`rawCsvValue`, not `formatValue`); the exported data row count equals the
filtered row count, and the downloaded text joins these lines. -/
theorem exportToCSV_spec (st : TableState) :
    (csvLines st).length = (filteredData st).length + 1
    ∧ (csvLines st).head? = some (String.intercalate "," (visibleColumns st))
    ∧ (csvLines st).tail =
        (filteredData st).map (fun row =>
          String.intercalate ","
            ((visibleColumns st).map (fun col => quoteField (rawCsvValue (getCol row col)))))
    ∧ exportToCSV st = String.intercalate "\n" (csvLines st) := by
  refine ⟨?_, rfl, rfl, rfl⟩
  simp [csvLines]

/-- C7: a row is kept by the free-text filter iff at least one of its
values, converted to text, contains the search term as a case-insensitive
substring; the filter ignores column visibility, so toggling any column
never changes the filtered set. -/
theorem filteredData_spec (st : TableState) (row : Row) (c : String) :
    (row ∈ filteredData st ↔ row ∈ st.data ∧
      ∃ v ∈ rowValues row,
        isSubstrOf (lowerChars st.searchTerm) (lowerChars (jsString v)) = true)
    ∧ filteredData (toggleColumn st c) = filteredData st := by
  constructor
  · simp [filteredData, rowMatches, List.mem_filter, List.any_eq_true]
  · unfold toggleColumn
    split <;> rfl

theorem ceil_mul_ge (len ps : Nat) (hps : 0 < ps) : len ≤ ceilDiv len ps * ps := by
  cases len with
  | zero => simp
  | succ k =>
    unfold ceilDiv
    have h1 : k + 1 + ps - 1 = k + ps := by omega
    rw [h1, Nat.add_div_right k hps]
    have h2 : k % ps + 1 ≤ ps := Nat.mod_lt k hps
    calc k + 1 = ps * (k / ps) + k % ps + 1 := by rw [Nat.div_add_mod]
      _ ≤ ps * (k / ps) + ps := by omega
      _ = k / ps * ps + ps := by rw [Nat.mul_comm]
      _ = (k / ps + 1) * ps := by rw [Nat.add_mul, Nat.one_mul]

theorem flatten_chunks {α : Type} (l : List α) (ps : Nat) :
    ∀ n : Nat,
      (List.flatten ((List.range n).map (fun i => (l.drop (i * ps)).take ps))) =
        l.take (n * ps) := by
  intro n
  induction n with
  | zero => simp
  | succ n ih =>
    rw [List.range_succ, List.map_append, List.flatten_append, ih]
    simp only [List.map_cons, List.map_nil, List.flatten_cons, List.flatten_nil,
      List.append_nil]
    rw [Nat.succ_mul, List.take_add]

/-- C8: for every table state with page size ≥ 1, concatenating
`page(1), ..., page(totalPages)` — each page being the slice of the
filtered sequence from `(p-1)·pageSize` to `p·pageSize` — reconstructs
exactly the filtered sequence, with no duplication and no omission. -/
theorem pagination_partition (st : TableState) (h : 1 ≤ st.pageSize) :
    List.flatten ((List.range (totalPages st)).map (fun i => pageAt st (i + 1))) =
      filteredData st := by
  have hpage : ∀ i : Nat,
      pageAt st (i + 1) =
        ((filteredData st).drop (i * st.pageSize)).take st.pageSize := by
    intro i
    rfl
  simp only [hpage]
  rw [flatten_chunks]
  exact List.take_of_length_le (ceil_mul_ge _ _ h)

/-- Witness for C8: three concrete rows, page size two, two pages. -/
theorem pagination_partition_witness :
    1 ≤ ((⟨[[("t", Value.vnum ⟨5, 0⟩)], [("t", Value.vnull)],
        [("t", Value.vstr "x")]], 2, 1, "", []⟩ : TableState)).pageSize
    ∧ List.flatten ((List.range (totalPages
        (⟨[[("t", Value.vnum ⟨5, 0⟩)], [("t", Value.vnull)],
          [("t", Value.vstr "x")]], 2, 1, "", []⟩ : TableState))).map
        (fun i => pageAt
          (⟨[[("t", Value.vnum ⟨5, 0⟩)], [("t", Value.vnull)],
            [("t", Value.vstr "x")]], 2, 1, "", []⟩ : TableState) (i + 1))) =
      filteredData
        (⟨[[("t", Value.vnum ⟨5, 0⟩)], [("t", Value.vnull)],
          [("t", Value.vstr "x")]], 2, 1, "", []⟩ : TableState) :=
  ⟨by decide, pagination_partition _ (by decide)⟩

/-! ### Chat session controller claims -/

/-- C9: for every state whose question is empty or whitespace-only, and in
every state where a request is already pending, `sendMessage` is a no-op:
the state — message log, input, toasts, pending requests — is unchanged
and no request is issued. -/
theorem sendMessage_noop (st : ChatState)
    (h : jsTrim st.input = "" ∨ st.isLoading = true) :
    sendMessage st = (st, false) := by
  unfold sendMessage
  rcases h with h | h
  · simp [h]
  · simp [h]

/-- Witness for C9: the whitespace-only input "   " in the initial state. -/
theorem sendMessage_noop_witness :
    jsTrim ({ initChatState with input := "   " } : ChatState).input = ""
    ∧ sendMessage { initChatState with input := "   " } =
        ({ initChatState with input := "   " }, false) :=
  ⟨by decide, sendMessage_noop _ (Or.inl (by decide))⟩

/-- C5: for every state and every outcome of a request, the pending flag is
cleared by `sendQueryComplete` (success, structured HTTP failure, thrown
transport error alike); on the failure outcomes exactly one `error` message
is appended and the destructive connection-error toast is surfaced; and
afterwards `sendMessage` issues a request again as soon as the input is
nonempty.  The completion function is total: no exception escapes it. -/
theorem sendQuery_failure_spec (st : ChatState) (o : QueryOutcome) :
    (sendQueryComplete st o).isLoading = false
    ∧ (isFailure o = true →
        ∃ m : ChatMsg, (sendQueryComplete st o).messages = st.messages ++ [m]
          ∧ m.message_type = .error
          ∧ (sendQueryComplete st o).toasts = st.toasts ++
              [{ title := "Connection Error",
                 description := "Unable to connect to the server",
                 destructive := true }])
    ∧ (isFailure o = true → jsTrim (sendQueryComplete st o).input ≠ "" →
        (sendMessage (sendQueryComplete st o)).2 = true) := by
  refine ⟨?_, ?_, ?_⟩
  · cases o <;> rfl
  · intro hf
    cases o with
    | success resp => simp [isFailure] at hf
    | httpError status => exact ⟨_, rfl, rfl, rfl⟩
    | transportError emsg => exact ⟨_, rfl, rfl, rfl⟩
  · intro hf hne
    cases o with
    | success resp => simp [isFailure] at hf
    | httpError status =>
      simp only [sendQueryComplete, applyCatch] at hne ⊢
      simp [sendMessage, hne]
    | transportError emsg =>
      simp only [sendQueryComplete, applyCatch] at hne ⊢
      simp [sendMessage, hne]

/-- Witness for C5: a thrown transport error completing in a loading state
with a nonempty input. -/
theorem sendQuery_failure_spec_witness :
    isFailure (QueryOutcome.transportError "Failed to fetch") = true
    ∧ jsTrim (sendQueryComplete { initChatState with input := "next", isLoading := true }
        (QueryOutcome.transportError "Failed to fetch")).input ≠ ""
    ∧ (sendQueryComplete { initChatState with input := "next", isLoading := true }
        (QueryOutcome.transportError "Failed to fetch")).isLoading = false
    ∧ (∃ m : ChatMsg,
        (sendQueryComplete { initChatState with input := "next", isLoading := true }
          (QueryOutcome.transportError "Failed to fetch")).messages =
            ({ initChatState with input := "next", isLoading := true } : ChatState).messages
              ++ [m]
        ∧ m.message_type = .error
        ∧ (sendQueryComplete { initChatState with input := "next", isLoading := true }
            (QueryOutcome.transportError "Failed to fetch")).toasts =
              ({ initChatState with input := "next", isLoading := true } : ChatState).toasts
                ++ [{ title := "Connection Error",
                      description := "Unable to connect to the server",
                      destructive := true }])
    ∧ (sendMessage (sendQueryComplete { initChatState with input := "next", isLoading := true }
        (QueryOutcome.transportError "Failed to fetch"))).2 = true := by
  refine ⟨by decide, by decide, (sendQuery_failure_spec _ _).1,
    (sendQuery_failure_spec _ _).2.1 (by decide),
    (sendQuery_failure_spec _ _).2.2 (by decide) (by decide)⟩

/-- C4 counterexample: from the initial state, submitting "show floats"
puts a request in flight (the pending flag is set), yet invoking
`handleRunAnyway` in that state issues a request anyway, leaving two
concurrent pending requests. -/
theorem runAnyway_concurrent_cex :
    ((sendMessage (setInput initChatState "show floats")).1).isLoading = true
    ∧ (handleRunAnyway ((sendMessage (setInput initChatState "show floats")).1)
        ⟨"m2", "find whales", .bot, "1", some "SELECT 1", none, true⟩).2 = true
    ∧ ((handleRunAnyway ((sendMessage (setInput initChatState "show floats")).1)
        ⟨"m2", "find whales", .bot, "1", some "SELECT 1", none, true⟩).1).pendingRequests.length
        = 2 := by
  refine ⟨?_, rfl, ?_⟩ <;> decide

/-- C4 (amended: only the submit trigger is disabled while a request is
pending): in every state with the pending flag set, `sendMessage` is a
no-op and issues no second request; the run-anyway trigger is not guarded,
and invoking it while the flag is set always issues a further concurrent
request. -/
theorem pending_submit_guard (st : ChatState) (h : st.isLoading = true) :
    sendMessage st = (st, false)
    ∧ ∀ msg : ChatMsg, (handleRunAnyway st msg).2 = true
      ∧ ((handleRunAnyway st msg).1).pendingRequests.length =
          st.pendingRequests.length + 1 := by
  constructor
  · unfold sendMessage
    simp [h]
  · intro msg
    refine ⟨rfl, ?_⟩
    simp [handleRunAnyway, sendQueryStart]

/-- Witness for C4's amended statement: a loading state. -/
theorem pending_submit_guard_witness :
    ({ initChatState with isLoading := true } : ChatState).isLoading = true
    ∧ sendMessage { initChatState with isLoading := true } =
        ({ initChatState with isLoading := true }, false) :=
  ⟨rfl, (pending_submit_guard { initChatState with isLoading := true } rfl).1⟩

/-- C6 counterexample: at the concrete event Enter-with-shift, the handler
does not suppress the default browser action, contradicting the claim that
the default action is suppressed in both cases. -/
theorem handleKeyPress_shiftEnter_cex :
    ¬ (handleKeyPress ⟨"Enter", true⟩).defaultSuppressed = true := by
  decide

/-- C6 (amended: the default action is suppressed only for plain Enter): a
plain Enter keypress suppresses the default action and triggers submit;
Enter with the shift modifier neither triggers submit nor suppresses the
default action, and any other key does nothing. -/
theorem handleKeyPress_spec (e : KeyEvent) :
    (e.key = "Enter" → e.shiftKey = false →
      handleKeyPress e = ⟨true, true⟩)
    ∧ (e.shiftKey = true → handleKeyPress e = ⟨false, false⟩)
    ∧ (e.key ≠ "Enter" → handleKeyPress e = ⟨false, false⟩) := by
  obtain ⟨k, s⟩ := e
  refine ⟨?_, ?_, ?_⟩
  · intro hk hs
    subst hk
    subst hs
    rfl
  · intro hs
    subst hs
    simp [handleKeyPress]
  · intro hk
    simp [handleKeyPress, hk]

/-- Witness for C6's amended statement: plain Enter and shift-Enter. -/
theorem handleKeyPress_spec_witness :
    handleKeyPress ⟨"Enter", false⟩ = ⟨true, true⟩
    ∧ handleKeyPress ⟨"Enter", true⟩ = ⟨false, false⟩ :=
  ⟨(handleKeyPress_spec ⟨"Enter", false⟩).1 rfl rfl,
   (handleKeyPress_spec ⟨"Enter", true⟩).2.1 rfl⟩

end FloatChat
